import Mathlib

/-!
Verification of the BLE scanner's session-management core, translated from
`ble_scanner.py` (advertisement aggregation and device filtering) and
`bleak_worker.py` (the serialized BLE command loop).
-/

namespace BLE

/-- Association-list lookup, modelling Python dictionary indexing
(`d[k]`, and the membership test `k in d`). -/
def alookup {α : Type} : List (String × α) → String → Option α
  | [], _ => none
  | (k', v) :: t, k => if k' = k then some v else alookup t k

/-- Association-list update, modelling Python dictionary assignment
`d[k] = v`: a present key keeps its position, a fresh key is appended
(Python dictionaries preserve insertion order). -/
def aset {α : Type} : List (String × α) → String → α → List (String × α)
  | [], k, v => [(k, v)]
  | (k', v') :: t, k, v => if k' = k then (k, v) :: t else (k', v') :: aset t k v

/-- Association-list deletion, modelling Python `del d[k]` (and
`dict.clear` restricted to one key's removal). Dictionary keys are unique,
so deleting a key drops exactly the pair carrying it; on our lists we drop
every pair with that key, which coincides on dictionary-like states. -/
def aerase {α : Type} (l : List (String × α)) (k : String) : List (String × α) :=
  l.filter (fun p => !(p.1 == k))

/-- A discovered BLE device as the GUI layer sees it (`ble_scanner.py`):
its address string and optional display name. -/
structure Device where
  address : String
  name : Option String
deriving DecidableEq

/-- The advertisement payload fields the scanner consumes: the last RSSI
(possibly absent) and the manufacturer-data map, company code mapped to its
data bytes (each byte value < 256). -/
structure AdvData where
  rssi : Option Int
  mfg : List (Nat × List Nat)
deriving DecidableEq

/-- The slice of `BLEScanner` window state the aggregation logic touches:
`scanning`, `all_devices`, `device_advertisements`, `adv_timestamps` and
`adv_periods` (`ble_scanner.py`). -/
structure SState where
  scanning : Bool
  allDevices : List Device
  deviceAdvs : List (String × AdvData)
  advTimestamps : List (String × List Int)
  advPeriods : List (String × Int)
deriving DecidableEq

/-- Consecutive differences `timestamps[i] - timestamps[i-1]`, the list
comprehension of `process_advertisement` (ble_scanner.py line 236). -/
def diffs : List Int → List Int
  | a :: b :: t => (b - a) :: diffs (b :: t)
  | _ => []

/-- Python `min` over a nonempty list, seeded with its first element. -/
def minL (x : Int) (l : List Int) : Int := l.foldl min x

/-- The `min_period` value of `process_advertisement` (line 237): the
minimum of the consecutive timestamp differences. The code only evaluates
it when at least two timestamps exist, where `diffs` is nonempty. -/
def minPeriodOf (ts : List Int) : Int :=
  match diffs ts with
  | [] => 0
  | d :: ds => minL d ds

/-- `process_advertisement` (ble_scanner.py lines 196-249), restricted to
its state mutations: do nothing when not scanning; append the device to
`all_devices` when its address is new; store the advertisement payload;
append the timestamp; recompute the minimum period once at least two
timestamps exist for the address. -/
def ingest (s : SState) (d : Device) (ad : AdvData) (t : Int) : SState :=
  if s.scanning then
    let devs := if s.allDevices.any (fun e => e.address == d.address) then s.allDevices
      else s.allDevices ++ [d]
    let ts := ((alookup s.advTimestamps d.address).getD []) ++ [t]
    { s with
      allDevices := devs
      deviceAdvs := aset s.deviceAdvs d.address ad
      advTimestamps := aset s.advTimestamps d.address ts
      advPeriods :=
        if 2 ≤ ts.length then aset s.advPeriods d.address (minPeriodOf ts)
        else s.advPeriods }
  else s

/-- Ingest a sequence of (payload, timestamp) observations for one device. -/
def ingestAll (s : SState) (d : Device) : List (AdvData × Int) → SState
  | [] => s
  | o :: os => ingestAll (ingest s d o.1 o.2) d os

/-- `start_scan` (ble_scanner.py lines 179-188): set `scanning` and clear
the advertisement timestamp and period maps. `all_devices` and
`device_advertisements` are not touched — only the table widget display is
cleared. -/
def startScan (s : SState) : SState :=
  { s with scanning := true, advTimestamps := [], advPeriods := [] }

/-- Lowercase a character list, Python `str.lower()` for the strings
involved here. -/
def toLowerL (l : List Char) : List Char := l.map Char.toLower

/-- Whether the first list is an initial segment of the second. -/
def leadMatch : List Char → List Char → Bool
  | [], _ => true
  | _ :: _, [] => false
  | a :: as, b :: bs => a == b && leadMatch as bs

/-- Python substring containment `needle in hay` over characters. -/
def containsSub : List Char → List Char → Bool
  | [], n => n.isEmpty
  | c :: t, n => leadMatch n (c :: t) || containsSub t n

/-- The characters removed by Python `str.strip()`. -/
def isSpaceCh (c : Char) : Bool :=
  c == ' ' || c == '\t' || c == '\n' || c == '\r' || c == Char.ofNat 11 || c == Char.ofNat 12

/-- Python `str.strip()`. -/
def pyStrip (l : List Char) : List Char :=
  ((l.dropWhile isSpaceCh).reverse.dropWhile isSpaceCh).reverse

/-- Normalization of the advertisement-data filter text in `apply_filters`
(ble_scanner.py line 298): strip, lowercase, then remove every space. -/
def normAdvFilter (x : String) : List Char :=
  (toLowerL (pyStrip x.data)).filter (fun c => !(c == ' '))

/-- One lowercase hex digit (argument < 16). -/
def hexDigit (n : Nat) : Char :=
  if n < 10 then Char.ofNat (48 + n) else Char.ofNat (87 + n)

/-- Two-digit lowercase hex of a byte value, Python `02x` formatting. -/
def hexByte (b : Nat) : List Char := [hexDigit (b / 16 % 16), hexDigit (b % 16)]

/-- The `mfg_hex` accumulator of `apply_filters` (lines 321-327): the
concatenation of the lowercase hex of every manufacturer-data byte. -/
def mfgHex (m : List (Nat × List Nat)) : List Char :=
  (m.map (fun p => (p.2.map hexByte).flatten)).flatten

/-- The last-seen RSSI for an address, read from `device_advertisements`
(ble_scanner.py lines 306-309). -/
def devRssi (s : SState) (addr : String) : Option Int :=
  (alookup s.deviceAdvs addr).bind (fun ad => ad.rssi)

/-- The manufacturer-data hex for an address; empty when the address never
advertised (then `mfg_hex` stays `""` in the code). -/
def devMfgHex (s : SState) (addr : String) : List Char :=
  match alookup s.deviceAdvs addr with
  | some ad => mfgHex ad.mfg
  | none => []

/-- The guard chain of `apply_filters` (ble_scanner.py lines 300-330) for a
single device: the three `continue` conditions, in source order, negated
into a pass condition. `macLower` and `advF` are the already-normalized
filter texts, matching the code normalizing them once before the loop. -/
def passFilters (s : SState) (macLower : List Char) (rssiF : Option Int)
    (advF : List Char) (dev : Device) : Bool :=
  (macLower.isEmpty || containsSub (toLowerL dev.address.data) macLower) &&
  (match rssiF with
   | none => true
   | some r =>
     match devRssi s dev.address with
     | none => false
     | some v => !(decide (v < r))) &&
  (advF.isEmpty || containsSub (devMfgHex s dev.address) advF)

/-- `apply_filters` (ble_scanner.py lines 284-330), restricted to which
devices reach the table: filter `all_devices` by the three guards. -/
def applyFilters (s : SState) (macF : String) (rssiF : Option Int)
    (advText : String) : List Device :=
  s.allDevices.filter (passFilters s (toLowerL macF.data) rssiF (normAdvFilter advText))

/-! The worker side: `BleakWorker.run_ble_loop` (bleak_worker.py). The loop
drains one FIFO queue, one command at a time, to completion. Every adapter
interaction is resolved through an `Adapter` oracle fixing the outcome of
each underlying bleak call; `Except.error` stands for a raised exception,
which the loop's outer handler turns into an `error_occurred` signal. -/

/-- Adapter-level calls the worker issues, in issue order. Reads of the
cached `is_connected` property are not radio operations and are not
recorded. -/
inductive ACall where
  | scanStart
  | scanSleep (seconds : ℚ)
  | scanStop
  | clientConnect (addr : String) (timeoutSeconds : Option ℚ)
  | clientDisconnect (handle : Nat)
  | readChar (handle : Nat) (charUuid : String)
  | writeChar (handle : Nat) (charUuid : String)
  | startNotifyCall (handle : Nat) (charUuid : String)
  | stopNotifyCall (handle : Nat) (charUuid : String)
deriving DecidableEq

/-- The Qt signals `BleakWorker` emits (bleak_worker.py lines 9-17),
restricted to the fields the claims need. -/
inductive Event where
  | advertisementReceived (addr : String)
  | connectionUpdated (connected : Bool) (addr : String) (client : Option Nat)
  | servicesUpdated (addr : String)
  | characteristicRead (addr charUuid : String) (value : List Nat)
  | characteristicWritten (addr charUuid : String) (success : Bool)
  | errorOccurred (msg : String)
  | connectionStatusChecked (addr : String) (isConnected : Bool)
deriving DecidableEq

/-- Oracle fixing the outcome of every underlying bleak operation.
`Except.error m` models the call raising an exception with message `m`;
clients are identified by opaque `Nat` handles, `newClient` picking the
handle of a freshly constructed `BleakClient`. -/
structure Adapter where
  scanAdvs : List String
  connectR : String → Except String Bool
  newClient : String → Nat
  disconnectR : Nat → Except String Unit
  isConnR : Nat → Except String Bool
  readR : Nat → String → Except String (List Nat)
  writeR : Nat → String → Except String Unit
  startNotifyR : Nat → String → Except String Unit
  stopNotifyR : Nat → String → Except String Unit

/-- Worker state: `self.clients` (address → client handle) and
`self.notification_handlers` (address → subscribed characteristic uuids;
the code stores a uuid → True dict, i.e. a set of uuids). -/
structure WState where
  clients : List (String × Nat)
  handlers : List (String × List String)
deriving DecidableEq

/-- The commands the queue carries (bleak_worker.py lines 186-209). A scan
duration is `none` when the producer passed `None`. -/
inductive Cmd where
  | scan (duration : Option ℚ)
  | connect (addr : String) (timeout : Option ℚ)
  | disconnect (addr : String)
  | checkConnection (addr : String)
  | read (addr charUuid : String)
  | write (addr charUuid : String) (value : List Nat) (response : Bool)
  | startNotify (addr charUuid : String)
  | stopNotify (addr charUuid : String)
deriving DecidableEq

/-- Result of running one command body before the outer exception handler:
the state as mutated so far, the events emitted so far, the adapter calls
issued so far, and the uncaught exception, if one was raised. -/
structure Out where
  st : WState
  evs : List Event
  calls : List ACall
  exc : Option String
deriving DecidableEq

/-- The duration-unit heuristic of the scan command (bleak_worker.py line
38): `scan_time / 1000.0 if scan_time > 100 else scan_time`. -/
def scanSeconds (d : ℚ) : ℚ := if 100 < d then d / 1000 else d

/-- The connect command's timeout handling (lines 67-71): `if timeout:` is
Python truthiness, so `0` behaves like no timeout; otherwise the value is
converted from milliseconds to seconds. -/
def pyTimeoutSeconds (t : Option ℚ) : Option ℚ :=
  match t with
  | none => none
  | some v => if v = 0 then none else some (v / 1000)

/-- The stop-notify loop of the disconnect command (lines 98-100): call
`stop_notify` for each subscribed uuid in order; the first raised exception
propagates immediately, abandoning the rest of the loop. Returns the calls
issued and the exception, if any. -/
def stopAllNotify (a : Adapter) (h : Nat) : List String → List ACall × Option String
  | [] => ([], none)
  | u :: us =>
    match a.stopNotifyR h u with
    | .error m => ([ACall.stopNotifyCall h u], some m)
    | .ok _ =>
      let r := stopAllNotify a h us
      (ACall.stopNotifyCall h u :: r.1, r.2)

/-- The tail of the connect command after the prior-client handling (lines
66-92): build the client, attempt the adapter connect; on `True` store the
client, reset the handler map for the address, and emit the connected and
services signals; on `False` emit only `connection_updated(False)`. -/
def connectCore (a : Adapter) (s : WState) (addr : String) (timeout : Option ℚ)
    (pre : List ACall) : Out :=
  let h := a.newClient addr
  let calls := pre ++ [ACall.clientConnect addr (pyTimeoutSeconds timeout)]
  match a.connectR addr with
  | .error m => ⟨s, [], calls, some m⟩
  | .ok false => ⟨s, [Event.connectionUpdated false addr none], calls, none⟩
  | .ok true =>
    ⟨{ clients := aset s.clients addr h, handlers := aset s.handlers addr [] },
      [Event.connectionUpdated true addr (some h), Event.servicesUpdated addr],
      calls, none⟩

/-- The tail of the disconnect command after the stop-notify loop (lines
103-107): adapter disconnect, then emit `connection_updated(False)` and
delete the client and handler entries. -/
def discCore (a : Adapter) (s : WState) (addr : String) (h : Nat)
    (pre : List ACall) : Out :=
  let calls := pre ++ [ACall.clientDisconnect h]
  match a.disconnectR h with
  | .error m => ⟨s, [], calls, some m⟩
  | .ok _ =>
    ⟨{ clients := aerase s.clients addr, handlers := aerase s.handlers addr },
      [Event.connectionUpdated false addr none], calls, none⟩

/-- The `check_connection` result (lines 109-118): `False` when the address
has no client; a raising `is_connected` property is swallowed by the bare
`except` and also yields `False`. -/
def checkVal (a : Adapter) (s : WState) (addr : String) : Bool :=
  match alookup s.clients addr with
  | none => false
  | some h =>
    match a.isConnR h with
    | .ok v => v
    | .error _ => false

/-- One command's body (the big `if/elif` chain of `run_ble_loop`,
bleak_worker.py lines 34-166), before the outer exception handler. Guards
read the cached `is_connected` of the stored client; commands whose guard
fails fall through silently, emitting nothing. -/
def body (a : Adapter) (s : WState) : Cmd → Out
  | Cmd.scan dur =>
    match dur with
    | none => ⟨s, [], [], some "TypeError"⟩
    | some d =>
      ⟨s, a.scanAdvs.map Event.advertisementReceived,
        [ACall.scanStart, ACall.scanSleep (scanSeconds d), ACall.scanStop], none⟩
  | Cmd.connect addr timeout =>
    match alookup s.clients addr with
    | some h =>
      match a.disconnectR h with
      | .error m => ⟨s, [], [ACall.clientDisconnect h], some m⟩
      | .ok _ => connectCore a s addr timeout [ACall.clientDisconnect h]
    | none => connectCore a s addr timeout []
  | Cmd.disconnect addr =>
    match alookup s.clients addr with
    | none => ⟨s, [], [], none⟩
    | some h =>
      match a.isConnR h with
      | .error m => ⟨s, [], [], some m⟩
      | .ok false => ⟨s, [], [], none⟩
      | .ok true =>
        match alookup s.handlers addr with
        | some us =>
          let r := stopAllNotify a h us
          match r.2 with
          | some m => ⟨s, [], r.1, some m⟩
          | none => discCore a { s with handlers := aset s.handlers addr [] } addr h r.1
        | none => discCore a s addr h []
  | Cmd.checkConnection addr =>
    ⟨s, [Event.connectionStatusChecked addr (checkVal a s addr)], [], none⟩
  | Cmd.read addr u =>
    match alookup s.clients addr with
    | none => ⟨s, [], [], none⟩
    | some h =>
      match a.isConnR h with
      | .error m => ⟨s, [], [], some m⟩
      | .ok false => ⟨s, [], [], none⟩
      | .ok true =>
        match a.readR h u with
        | .ok v => ⟨s, [Event.characteristicRead addr u v], [ACall.readChar h u], none⟩
        | .error m =>
          ⟨s, [Event.errorOccurred
              ("Failed to read characteristic " ++ u ++ " on device " ++ addr ++ ": " ++ m)],
            [ACall.readChar h u], none⟩
  | Cmd.write addr u _value _resp =>
    match alookup s.clients addr with
    | none => ⟨s, [], [], none⟩
    | some h =>
      match a.isConnR h with
      | .error m => ⟨s, [], [], some m⟩
      | .ok false => ⟨s, [], [], none⟩
      | .ok true =>
        match a.writeR h u with
        | .ok _ =>
          ⟨s, [Event.characteristicWritten addr u true], [ACall.writeChar h u], none⟩
        | .error m =>
          ⟨s, [Event.errorOccurred
              ("Failed to write to characteristic " ++ u ++ " on device " ++ addr ++ ": " ++ m),
              Event.characteristicWritten addr u false],
            [ACall.writeChar h u], none⟩
  | Cmd.startNotify addr u =>
    match alookup s.clients addr with
    | none => ⟨s, [], [], none⟩
    | some h =>
      match a.isConnR h with
      | .error m => ⟨s, [], [], some m⟩
      | .ok false => ⟨s, [], [], none⟩
      | .ok true =>
        match a.startNotifyR h u with
        | .error m => ⟨s, [], [ACall.startNotifyCall h u], some m⟩
        | .ok _ =>
          let cur := (alookup s.handlers addr).getD []
          ⟨{ s with handlers := aset s.handlers addr (if u ∈ cur then cur else cur ++ [u]) },
            [], [ACall.startNotifyCall h u], none⟩
  | Cmd.stopNotify addr u =>
    match alookup s.clients addr with
    | none => ⟨s, [], [], none⟩
    | some h =>
      match a.isConnR h with
      | .error m => ⟨s, [], [], some m⟩
      | .ok false => ⟨s, [], [], none⟩
      | .ok true =>
        match alookup s.handlers addr with
        | none => ⟨s, [], [], none⟩
        | some us =>
          if u ∈ us then
            match a.stopNotifyR h u with
            | .error m => ⟨s, [], [ACall.stopNotifyCall h u], some m⟩
            | .ok _ =>
              ⟨{ s with handlers := aset s.handlers addr (us.erase u) },
                [], [ACall.stopNotifyCall h u], none⟩
          else ⟨s, [], [], none⟩

/-- One full iteration of `run_ble_loop` for one dequeued command: run the
body, and when it raised, emit `error_occurred` — plus, for a connect
command, `connection_updated(False, address, None)` (lines 168-177). -/
def step (a : Adapter) (s : WState) (c : Cmd) : WState × List Event × List ACall :=
  let o := body a s c
  match o.exc with
  | none => (o.st, o.evs, o.calls)
  | some m =>
    let tail : List Event :=
      match c with
      | Cmd.connect addr _ => [Event.connectionUpdated false addr none]
      | _ => []
    (o.st, o.evs ++ (Event.errorOccurred ("Error: " ++ m) :: tail), o.calls)

/-- Drain a FIFO queue of commands, one at a time, each to completion,
tagging every emitted event with the index of the command that produced it
(indices counted from `k`). This is `run_ble_loop`'s single-consumer loop
over `asyncio.Queue`, which hands commands back in strict `put` order. -/
def runFrom (a : Adapter) (s : WState) (k : Nat) : List Cmd → WState × List (Nat × Event)
  | [] => (s, [])
  | c :: cs =>
    let r := step a s c
    let rest := runFrom a r.1 (k + 1) cs
    (rest.1, (r.2.1.map (fun e => (k, e))) ++ rest.2)

/-- The number of `connection_updated(False, addr, _)` emissions in an
event list. -/
def countConnFalse (addr : String) (evs : List Event) : Nat :=
  (evs.filter (fun e =>
    match e with
    | Event.connectionUpdated false a _ => a == addr
    | _ => false)).length

/-- The number of `connection_updated(True, addr, _)` emissions in an
event list. -/
def countConnTrue (addr : String) (evs : List Event) : Nat :=
  (evs.filter (fun e =>
    match e with
    | Event.connectionUpdated true a _ => a == addr
    | _ => false)).length

/-- A benign adapter: connects report `False`, every other call succeeds,
stored clients read as connected. -/
def adapterIdle : Adapter :=
  { scanAdvs := []
    connectR := fun _ => .ok false
    newClient := fun _ => 0
    disconnectR := fun _ => .ok ()
    isConnR := fun _ => .ok true
    readR := fun _ _ => .ok []
    writeR := fun _ _ => .ok ()
    startNotifyR := fun _ _ => .ok ()
    stopNotifyR := fun _ _ => .ok () }

/-- An adapter whose `stop_notify` raises. -/
def adapterStopFail : Adapter := { adapterIdle with stopNotifyR := fun _ _ => .error "boom" }

/-- An adapter whose `disconnect` raises. -/
def adapterDiscFail : Adapter := { adapterIdle with disconnectR := fun _ => .error "gone" }

/-- An adapter whose `is_connected` property access raises. -/
def adapterIsConnRaise : Adapter := { adapterIdle with isConnR := fun _ => .error "raise" }

/-- Worker state with no clients. -/
def wEmpty : WState := ⟨[], []⟩

/-- Worker state with one client for "AA:BB" (handle 7) holding one active
notification subscription. -/
def wOne : WState := ⟨[("AA:BB", 7)], [("AA:BB", ["uuid1"])]⟩

/-- Scanner state right after a fresh scan started. -/
def sFresh : SState := ⟨true, [], [], [], []⟩

/-- The device of the specification's scenario. -/
def devAB : Device := ⟨"AA:BB", none⟩

/-- An advertisement payload with RSSI -50 and no manufacturer data. -/
def advQuiet : AdvData := ⟨some (-50), []⟩

/-- Scanner state carrying leftovers of a previous scan session. -/
def sPrior : SState :=
  ⟨false, [devAB], [("AA:BB", advQuiet)], [("AA:BB", [0])], [("AA:BB", 5)]⟩

/-! Helper lemmas about the association-list operations. -/

theorem alookup_aset_self {α : Type} (l : List (String × α)) (k : String) (v : α) :
    alookup (aset l k v) k = some v := by
  induction l with
  | nil => simp [aset, alookup]
  | cons p t ih =>
    obtain ⟨k', v'⟩ := p
    by_cases h : k' = k
    · simp [aset, h, alookup]
    · simp [aset, h, alookup, ih]

theorem alookup_aerase_self {α : Type} (l : List (String × α)) (k : String) :
    alookup (aerase l k) k = none := by
  induction l with
  | nil => rfl
  | cons p t ih =>
    obtain ⟨k', v'⟩ := p
    by_cases h : k' = k
    · simpa [aerase, List.filter_cons, h] using ih
    · simp only [aerase, List.filter_cons] at ih ⊢
      simp [h, alookup, ih]

/-! Helper lemmas about substring containment. -/

theorem containsSub_nil_r (h : List Char) : containsSub h [] = true := by
  cases h <;> simp [containsSub, leadMatch]

theorem isEmpty_or_containsSub (h n : List Char) :
    (n.isEmpty || containsSub h n) = containsSub h n := by
  cases n with
  | nil => simp [containsSub_nil_r]
  | cons c t => simp [List.isEmpty]

/-! Helper lemmas about the minimum computation. -/

theorem minL_le_seed (l : List Int) : ∀ x, minL x l ≤ x := by
  induction l with
  | nil => intro x; simp [minL]
  | cons y t ih =>
    intro x
    have h1 : minL x (y :: t) = minL (min x y) t := rfl
    rw [h1]
    exact le_trans (ih (min x y)) (min_le_left x y)

theorem minL_le_mem (l : List Int) : ∀ x y, y ∈ l → minL x l ≤ y := by
  induction l with
  | nil => intro x y hy; cases hy
  | cons z t ih =>
    intro x y hy
    have h1 : minL x (z :: t) = minL (min x z) t := rfl
    rw [h1]
    rcases List.mem_cons.mp hy with h | h
    · subst h; exact le_trans (minL_le_seed t (min x y)) (min_le_right x y)
    · exact ih (min x z) y h

theorem minL_mem (l : List Int) : ∀ x, minL x l = x ∨ minL x l ∈ l := by
  induction l with
  | nil => intro x; left; rfl
  | cons z t ih =>
    intro x
    have h1 : minL x (z :: t) = minL (min x z) t := rfl
    rcases ih (min x z) with h | h
    · rcases min_choice x z with hc | hc
      · left; rw [h1, h, hc]
      · right; rw [h1, h, hc]; exact List.mem_cons_self z t
    · right; rw [h1]; exact List.mem_cons_of_mem z h

theorem diffs_ne_nil (l : List Int) (h : 2 ≤ l.length) : diffs l ≠ [] := by
  match l, h with
  | a :: b :: t, _ => simp [diffs]

theorem minPeriodOf_spec (ts : List Int) (hne : diffs ts ≠ []) :
    minPeriodOf ts ∈ diffs ts ∧ ∀ x ∈ diffs ts, minPeriodOf ts ≤ x := by
  cases hd : diffs ts with
  | nil => exact absurd hd hne
  | cons d ds =>
    have hm : minPeriodOf ts = minL d ds := by simp [minPeriodOf, hd]
    constructor
    · rw [hm]
      rcases minL_mem ds d with h | h
      · rw [h]; exact List.mem_cons_self _ _
      · exact List.mem_cons_of_mem _ h
    · intro x hx
      rw [hm]
      rcases List.mem_cons.mp hx with h | h
      · subst h; exact minL_le_seed ds x
      · exact minL_le_mem ds d x h

/-! Helper lemmas about advertisement ingestion. -/

theorem ingest_scanning (s : SState) (d : Device) (ad : AdvData) (t : Int) :
    (ingest s d ad t).scanning = s.scanning := by
  by_cases h : s.scanning <;> simp [ingest, h]

theorem ingest_ts (s : SState) (d : Device) (ad : AdvData) (t : Int)
    (h : s.scanning = true) :
    alookup (ingest s d ad t).advTimestamps d.address =
      some (((alookup s.advTimestamps d.address).getD []) ++ [t]) := by
  simp [ingest, h, alookup_aset_self]

theorem ingest_periods (s : SState) (d : Device) (ad : AdvData) (t : Int)
    (h : s.scanning = true)
    (hlen : 2 ≤ ((alookup s.advTimestamps d.address).getD [] ++ [t]).length) :
    alookup (ingest s d ad t).advPeriods d.address =
      some (minPeriodOf ((alookup s.advTimestamps d.address).getD [] ++ [t])) := by
  have h1 : 1 ≤ ((alookup s.advTimestamps d.address).getD []).length := by
    simp only [List.length_append, List.length_cons, List.length_nil] at hlen
    omega
  simp only [ingest, h, if_true]
  simp [h1, alookup_aset_self]

theorem ingestAll_ts (obs : List (AdvData × Int)) :
    ∀ (s : SState) (d : Device), s.scanning = true →
    ((ingestAll s d obs).scanning = true ∧
     (alookup (ingestAll s d obs).advTimestamps d.address).getD [] =
       ((alookup s.advTimestamps d.address).getD []) ++ obs.map Prod.snd) := by
  induction obs with
  | nil => intro s d h; exact ⟨h, by simp [ingestAll]⟩
  | cons o os ih =>
    intro s d h
    have h2 : (ingest s d o.1 o.2).scanning = true := by rw [ingest_scanning]; exact h
    obtain ⟨hs, hts⟩ := ih (ingest s d o.1 o.2) d h2
    have hstep : ingestAll s d (o :: os) = ingestAll (ingest s d o.1 o.2) d os := rfl
    refine ⟨by rw [hstep]; exact hs, ?_⟩
    rw [hstep, hts, ingest_ts s d o.1 o.2 h]
    simp

theorem ingestAll_min (obs : List (AdvData × Int)) :
    ∀ (s : SState) (d : Device), s.scanning = true → obs ≠ [] →
    2 ≤ ((alookup s.advTimestamps d.address).getD []).length + obs.length →
    alookup (ingestAll s d obs).advPeriods d.address =
      some (minPeriodOf (((alookup s.advTimestamps d.address).getD []) ++ obs.map Prod.snd)) := by
  induction obs with
  | nil => intro s d _ hne _; exact absurd rfl hne
  | cons o os ih =>
    intro s d h _ hlen
    have hstep : ingestAll s d (o :: os) = ingestAll (ingest s d o.1 o.2) d os := rfl
    cases os with
    | nil =>
      rw [hstep]
      have : ingestAll (ingest s d o.1 o.2) d [] = ingest s d o.1 o.2 := rfl
      rw [this]
      have hlen2 : 2 ≤ ((alookup s.advTimestamps d.address).getD [] ++ [o.2]).length := by
        simp only [List.length_append, List.length_cons, List.length_nil]
        simp only [List.length_cons, List.length_nil] at hlen
        omega
      have := ingest_periods s d o.1 o.2 h hlen2
      rw [this]
      simp
    | cons o2 os2 =>
      have h2 : (ingest s d o.1 o.2).scanning = true := by rw [ingest_scanning]; exact h
      have hts := ingest_ts s d o.1 o.2 h
      have hlen2 : 2 ≤ ((alookup (ingest s d o.1 o.2).advTimestamps d.address).getD []).length
          + (o2 :: os2).length := by
        rw [hts]
        simp only [Option.getD_some, List.length_append, List.length_cons, List.length_nil]
        omega
      have := ih (ingest s d o.1 o.2) d h2 (by simp) hlen2
      rw [hstep, this, hts]
      simp

/-- Claim C2: for every address with at least two advertisement
observations at strictly increasing timestamps ingested during one scan,
the stored advertising period afterwards equals the minimum over the
consecutive timestamp differences — an attained lower bound of them. -/
theorem advertisement_min_period (s : SState) (d : Device) (obs : List (AdvData × Int))
    (hscan : s.scanning = true)
    (hfresh : alookup s.advTimestamps d.address = none)
    (hlen : 2 ≤ obs.length)
    (hmono : List.Chain' (· < ·) (obs.map Prod.snd)) :
    alookup (ingestAll s d obs).advPeriods d.address =
      some (minPeriodOf (obs.map Prod.snd)) ∧
    minPeriodOf (obs.map Prod.snd) ∈ diffs (obs.map Prod.snd) ∧
    ∀ x ∈ diffs (obs.map Prod.snd), minPeriodOf (obs.map Prod.snd) ≤ x := by
  have hprev : (alookup s.advTimestamps d.address).getD [] = [] := by rw [hfresh]; rfl
  have hne : obs ≠ [] := by
    cases obs with
    | nil => simp at hlen
    | cons o os => simp
  have h1 := ingestAll_min obs s d hscan hne (by rw [hprev]; simpa using hlen)
  rw [hprev] at h1
  simp only [List.nil_append] at h1
  have hd := minPeriodOf_spec (obs.map Prod.snd)
    (diffs_ne_nil _ (by simpa using hlen))
  exact ⟨h1, hd.1, hd.2⟩

/-- Claim C2 (witness): the specification scenario — advertisements at
t = 0, 100, 250 for address "AA:BB" give a stored period of 100. -/
theorem advertisement_min_period_w :
    alookup (ingestAll sFresh devAB
      [(advQuiet, 0), (advQuiet, 100), (advQuiet, 250)]).advPeriods "AA:BB" = some 100 := by
  have h := advertisement_min_period sFresh devAB
    [(advQuiet, 0), (advQuiet, 100), (advQuiet, 250)] rfl rfl (by decide)
    (by norm_num [List.chain'_cons])
  exact h.1.trans (by decide)

/-- Claim C3 (counterexample): starting a new scan does not reset the set
of known devices — a device from a previous scan survives in `all_devices`
(and its payload in `device_advertisements`), contradicting the claim that
the Device set is reset to empty. -/
theorem start_scan_keeps_devices_cex :
    (startScan sPrior).allDevices = [devAB] ∧
    alookup (startScan sPrior).deviceAdvs "AA:BB" = some advQuiet := ⟨rfl, rfl⟩

/-- Claim C3 (amended): starting a new scan resets the per-address
advertisement history — timestamps and derived periods — to empty, but the
set of known devices and their stored advertisement payloads are retained
from the previous scan. -/
theorem start_scan_resets_history (s : SState) :
    (startScan s).advTimestamps = [] ∧ (startScan s).advPeriods = [] ∧
    (startScan s).allDevices = s.allDevices ∧
    (startScan s).deviceAdvs = s.deviceAdvs ∧
    (startScan s).scanning = true :=
  ⟨rfl, rfl, rfl, rfl, rfl⟩

/-- Claim C8: the device query returns exactly the devices whose address
contains the MAC filter case-insensitively (an empty filter matches every
address), whose last RSSI is known and at least the RSSI filter when one
is set, and whose concatenated manufacturer-data hex contains the
normalized (lowercased, space-stripped) advertisement filter. -/
theorem query_filters_exact (s : SState) (macF : String) (rssiF : Option Int)
    (advText : String) (dev : Device) :
    dev ∈ applyFilters s macF rssiF advText ↔
      (dev ∈ s.allDevices ∧
       containsSub (toLowerL dev.address.data) (toLowerL macF.data) = true ∧
       (∀ r, rssiF = some r → ∃ v, devRssi s dev.address = some v ∧ r ≤ v) ∧
       containsSub (devMfgHex s dev.address) (normAdvFilter advText) = true) := by
  rw [applyFilters, List.mem_filter]
  apply and_congr_right
  intro _
  rw [passFilters.eq_def]
  simp only [Bool.and_eq_true, isEmpty_or_containsSub]
  rw [and_assoc]
  refine and_congr_right (fun _ => and_congr ?_ Iff.rfl)
  cases hr : rssiF with
  | none => simp
  | some r =>
    cases hv : devRssi s dev.address with
    | none => simp [hv]
    | some v => simp [hv, Int.not_lt]

/-! Helper lemmas about the command loop. -/

theorem runFrom_tag_ge (cs : List Cmd) :
    ∀ (a : Adapter) (s : WState) (k : Nat) (p : Nat × Event),
      p ∈ (runFrom a s k cs).2 → k ≤ p.1 := by
  induction cs with
  | nil => intro a s k p hp; simp [runFrom] at hp
  | cons c t ih =>
    intro a s k p hp
    simp only [runFrom, List.mem_append, List.mem_map] at hp
    rcases hp with ⟨e, -, he⟩ | hp
    · rw [← he]
    · exact Nat.le_of_succ_le (ih a (step a s c).1 (k + 1) p hp)

theorem pairwise_const_tags (evs : List Event) (k : Nat) :
    List.Pairwise (fun p q : Nat × Event => p.1 ≤ q.1) (evs.map (fun e => (k, e))) := by
  induction evs with
  | nil => simp
  | cons e t ih =>
    simp only [List.map_cons]
    refine List.Pairwise.cons ?_ ih
    intro q hq
    obtain ⟨e', -, he⟩ := List.mem_map.mp hq
    rw [← he]

theorem runFrom_pairwise (cs : List Cmd) :
    ∀ (a : Adapter) (s : WState) (k : Nat),
      List.Pairwise (fun p q : Nat × Event => p.1 ≤ q.1) (runFrom a s k cs).2 := by
  induction cs with
  | nil => intro a s k; simp [runFrom]
  | cons c t ih =>
    intro a s k
    simp only [runFrom]
    rw [List.pairwise_append]
    refine ⟨pairwise_const_tags _ k, ih a (step a s c).1 (k + 1), ?_⟩
    intro x hx y hy
    obtain ⟨e, -, he⟩ := List.mem_map.mp hx
    have hk := runFrom_tag_ge t a (step a s c).1 (k + 1) y hy
    rw [← he]
    exact Nat.le_of_succ_le hk

theorem runFrom_append (cs₁ : List Cmd) :
    ∀ (cs₂ : List Cmd) (a : Adapter) (s : WState) (k : Nat),
      runFrom a s k (cs₁ ++ cs₂) =
        ((runFrom a (runFrom a s k cs₁).1 (k + cs₁.length) cs₂).1,
         (runFrom a s k cs₁).2 ++
           (runFrom a (runFrom a s k cs₁).1 (k + cs₁.length) cs₂).2) := by
  induction cs₁ with
  | nil => intro cs₂ a s k; simp [runFrom]
  | cons c t ih =>
    intro cs₂ a s k
    have hk : k + (c :: t).length = (k + 1) + t.length := by
      simp only [List.length_cons]
      omega
    simp only [List.cons_append, runFrom, hk, List.append_eq]
    rw [ih cs₂ a (step a s c).1 (k + 1)]
    simp [List.append_assoc]

/-- Claim C1: the sequencer drains its FIFO queue one command at a time, to
completion: processing a queue `cs₁ ++ cs₂` yields exactly the events of
`cs₁` followed by the events of `cs₂` run from the resulting state, and in
any run the emitted events carry nondecreasing command indices — an event
of an earlier-enqueued command is never observed after one of a later
command, and no two commands interleave. -/
theorem sequencer_fifo (a : Adapter) (s : WState) (k : Nat) (cs₁ cs₂ : List Cmd) :
    (runFrom a s k (cs₁ ++ cs₂)).2 =
      (runFrom a s k cs₁).2 ++
        (runFrom a (runFrom a s k cs₁).1 (k + cs₁.length) cs₂).2 ∧
    List.Pairwise (fun p q : Nat × Event => p.1 ≤ q.1) (runFrom a s k (cs₁ ++ cs₂)).2 := by
  refine ⟨?_, runFrom_pairwise (cs₁ ++ cs₂) a s k⟩
  rw [runFrom_append cs₁ cs₂ a s k]

/-- Claim C4 (counterexample): a read command on an address with no client
emits no event at all — in particular no Error event reporting
NotConnected, contradicting the claim. -/
theorem not_connected_no_error_cex :
    (step adapterIdle wEmpty (Cmd.read "AA:BB" "some-uuid")).2.1 = [] := rfl

/-- Claim C4 (amended): a Read, Write, StartNotify, or StopNotify command
whose address has no active connected client at dispatch time performs zero
adapter calls and emits no events — it is silently skipped; no NotConnected
Error event exists in the code. -/
theorem not_connected_silently_skipped (a : Adapter) (s : WState)
    (addr u : String) (v : List Nat) (resp : Bool)
    (hnc : alookup s.clients addr = none ∨
      ∃ h, alookup s.clients addr = some h ∧ a.isConnR h = .ok false) :
    step a s (Cmd.read addr u) = (s, [], []) ∧
    step a s (Cmd.write addr u v resp) = (s, [], []) ∧
    step a s (Cmd.startNotify addr u) = (s, [], []) ∧
    step a s (Cmd.stopNotify addr u) = (s, [], []) := by
  rcases hnc with hc | ⟨h, hc, hr⟩
  · refine ⟨?_, ?_, ?_, ?_⟩ <;> simp [step, body, hc]
  · refine ⟨?_, ?_, ?_, ?_⟩ <;> simp [step, body, hc, hr]

/-- Claim C4 (amended, witness): the four commands at a concrete
disconnected address are all silently skipped. -/
theorem not_connected_silently_skipped_w :
    step adapterIdle wEmpty (Cmd.read "AA:BB" "u") = (wEmpty, [], []) ∧
    step adapterIdle wEmpty (Cmd.write "AA:BB" "u" [1] true) = (wEmpty, [], []) ∧
    step adapterIdle wEmpty (Cmd.startNotify "AA:BB" "u") = (wEmpty, [], []) ∧
    step adapterIdle wEmpty (Cmd.stopNotify "AA:BB" "u") = (wEmpty, [], []) :=
  not_connected_silently_skipped adapterIdle wEmpty "AA:BB" "u" [1] true (Or.inl rfl)

/-- Helper: the stop-notify loop raises no exception when every call
succeeds. -/
theorem stopAllNotify_ok (a : Adapter) (h : Nat) :
    ∀ us, (∀ u ∈ us, a.stopNotifyR h u = .ok ()) → (stopAllNotify a h us).2 = none := by
  intro us
  induction us with
  | nil => intro _; rfl
  | cons u t ih =>
    intro hall
    have hu := hall u (List.mem_cons_self u t)
    simp only [stopAllNotify, hu]
    exact ih (fun x hx => hall x (List.mem_cons_of_mem u hx))

/-- Claim C5 (counterexample): when a per-subscription stop-notify call
raises during a disconnect, the whole disconnect command aborts: the
subscription map for the address still holds the subscription, the client
entry survives, and only an Error event is emitted — contradicting the
claim that errors are swallowed and the map always ends empty. -/
theorem disconnect_failing_stop_notify_cex :
    alookup (step adapterStopFail wOne (Cmd.disconnect "AA:BB")).1.handlers "AA:BB" =
      some ["uuid1"] ∧
    alookup (step adapterStopFail wOne (Cmd.disconnect "AA:BB")).1.clients "AA:BB" =
      some 7 ∧
    (step adapterStopFail wOne (Cmd.disconnect "AA:BB")).2.1 =
      [Event.errorOccurred "Error: boom"] := ⟨rfl, rfl, rfl⟩

/-- Claim C5 (amended): a Disconnect on a connected address removes the
registry's subscription map entry (and the client entry) and emits
ConnectionChanged(false) provided every per-subscription StopNotify call
and the adapter disconnect succeed; a raising StopNotify instead aborts the
disconnect, leaving subscriptions and client state untouched. -/
theorem disconnect_clears_subscriptions (a : Adapter) (s : WState) (addr : String)
    (h : Nat) (us : List String)
    (hcl : alookup s.clients addr = some h)
    (hconn : a.isConnR h = .ok true)
    (hsubs : alookup s.handlers addr = some us)
    (hstops : ∀ u ∈ us, a.stopNotifyR h u = .ok ())
    (hdisc : a.disconnectR h = .ok ()) :
    alookup (step a s (Cmd.disconnect addr)).1.handlers addr = none ∧
    alookup (step a s (Cmd.disconnect addr)).1.clients addr = none ∧
    (step a s (Cmd.disconnect addr)).2.1 = [Event.connectionUpdated false addr none] := by
  have hstop := stopAllNotify_ok a h us hstops
  simp only [step, body, hcl, hconn, hsubs, hstop, discCore, hdisc]
  simp [alookup_aerase_self]

/-- Claim C5 (amended, witness): a concrete successful disconnect removes
the subscription and client entries for "AA:BB". -/
theorem disconnect_clears_subscriptions_w :
    alookup (step adapterIdle wOne (Cmd.disconnect "AA:BB")).1.handlers "AA:BB" = none ∧
    alookup (step adapterIdle wOne (Cmd.disconnect "AA:BB")).1.clients "AA:BB" = none ∧
    (step adapterIdle wOne (Cmd.disconnect "AA:BB")).2.1 =
      [Event.connectionUpdated false "AA:BB" none] :=
  disconnect_clears_subscriptions adapterIdle wOne "AA:BB" 7 ["uuid1"]
    rfl rfl rfl (fun _ _ => rfl) rfl

/-- Claim C6 (counterexample): a failed Connect on an address that already
had a client keeps the stale client handle in the registry — `clients`
still maps "AA:BB" to handle 7 after the adapter connect returned `False` —
contradicting the claim that no client handle is retained. -/
theorem failed_connect_retains_stale_client_cex :
    alookup (step adapterIdle wOne (Cmd.connect "AA:BB" none)).1.clients "AA:BB" =
      some 7 := rfl

/-- Claim C6 (amended): every failed Connect command — the adapter connect
returned `False` or raised, or the prior best-effort disconnect raised —
leaves the worker state exactly as it was (so no new client handle is
stored, but a pre-existing entry for the address is retained) and emits
exactly one ConnectionChanged(false, address) event and no
ConnectionChanged(true, address). -/
theorem failed_connect_state_events (a : Adapter) (s : WState) (addr : String)
    (t : Option ℚ)
    (hfail : (∃ h m, alookup s.clients addr = some h ∧ a.disconnectR h = .error m) ∨
      a.connectR addr ≠ .ok true) :
    (step a s (Cmd.connect addr t)).1 = s ∧
    countConnFalse addr (step a s (Cmd.connect addr t)).2.1 = 1 ∧
    countConnTrue addr (step a s (Cmd.connect addr t)).2.1 = 0 := by
  rcases hfail with ⟨h, m, hc, hd⟩ | hcr
  · refine ⟨?_, ?_, ?_⟩ <;>
      simp [step, body, hc, hd, countConnFalse, countConnTrue, List.filter]
  · cases hcl : alookup s.clients addr with
    | none =>
      cases hcon : a.connectR addr with
      | error m =>
        refine ⟨?_, ?_, ?_⟩ <;>
          simp [step, body, hcl, connectCore, hcon, countConnFalse, countConnTrue,
            List.filter]
      | ok b =>
        cases b with
        | false =>
          refine ⟨?_, ?_, ?_⟩ <;>
            simp [step, body, hcl, connectCore, hcon, countConnFalse, countConnTrue,
              List.filter]
        | true => exact absurd hcon hcr
    | some h =>
      cases hd : a.disconnectR h with
      | error m =>
        refine ⟨?_, ?_, ?_⟩ <;>
          simp [step, body, hcl, hd, countConnFalse, countConnTrue, List.filter]
      | ok u =>
        cases hcon : a.connectR addr with
        | error m =>
          refine ⟨?_, ?_, ?_⟩ <;>
            simp [step, body, hcl, hd, connectCore, hcon, countConnFalse, countConnTrue,
              List.filter]
        | ok b =>
          cases b with
          | false =>
            refine ⟨?_, ?_, ?_⟩ <;>
              simp [step, body, hcl, hd, connectCore, hcon, countConnFalse,
                countConnTrue, List.filter]
          | true => exact absurd hcon hcr

/-- Claim C6 (amended, witness): a concrete failed connect on a fresh
address leaves the state unchanged and emits exactly one
ConnectionChanged(false). -/
theorem failed_connect_state_events_w :
    (step adapterIdle wEmpty (Cmd.connect "AA:BB" none)).1 = wEmpty ∧
    countConnFalse "AA:BB" (step adapterIdle wEmpty (Cmd.connect "AA:BB" none)).2.1 = 1 ∧
    countConnTrue "AA:BB" (step adapterIdle wEmpty (Cmd.connect "AA:BB" none)).2.1 = 0 :=
  failed_connect_state_events adapterIdle wEmpty "AA:BB" none
    (Or.inr (by intro h; simp [adapterIdle] at h))

/-- Claim C7 (counterexample): with a prior client whose best-effort
disconnect raises, the Connect command issues only the disconnect call —
the new adapter connect attempt is never made — contradicting the claim
that a failing prior disconnect is ignored. -/
theorem prior_disconnect_failure_blocks_cex :
    (step adapterDiscFail wOne (Cmd.connect "AA:BB" none)).2.2 =
      [ACall.clientDisconnect 7] := rfl

/-- Claim C7 (amended): a Connect on an address that already has an open
client disconnects the old client first — the disconnect call strictly
precedes any connect call — but its failure is not ignored: when the prior
disconnect raises, the command aborts with an Error event and a
ConnectionChanged(false) event and no adapter connect attempt is made; only
when the prior disconnect returns without raising does the new connect
attempt proceed. -/
theorem prior_disconnect_gates_connect (a : Adapter) (s : WState) (addr : String)
    (t : Option ℚ) (h : Nat)
    (hcl : alookup s.clients addr = some h) :
    (∀ m, a.disconnectR h = .error m →
      (step a s (Cmd.connect addr t)).2.2 = [ACall.clientDisconnect h] ∧
      (step a s (Cmd.connect addr t)).2.1 =
        [Event.errorOccurred ("Error: " ++ m),
         Event.connectionUpdated false addr none]) ∧
    (a.disconnectR h = .ok () →
      (step a s (Cmd.connect addr t)).2.2 =
        [ACall.clientDisconnect h, ACall.clientConnect addr (pyTimeoutSeconds t)]) := by
  constructor
  · intro m hm
    constructor <;> simp [step, body, hcl, hm]
  · intro hd
    cases hcon : a.connectR addr with
    | error m => simp [step, body, hcl, hd, connectCore, hcon]
    | ok b => cases b <;> simp [step, body, hcl, hd, connectCore, hcon]

/-- Claim C7 (amended, witness): concrete runs of both branches — a raising
prior disconnect blocks the connect attempt; a successful one lets it
proceed. -/
theorem prior_disconnect_gates_connect_w :
    (step adapterDiscFail wOne (Cmd.connect "AA:BB" none)).2.2 =
      [ACall.clientDisconnect 7] ∧
    (step adapterIdle wOne (Cmd.connect "AA:BB" none)).2.2 =
      [ACall.clientDisconnect 7, ACall.clientConnect "AA:BB" none] := by
  constructor
  · exact ((prior_disconnect_gates_connect adapterDiscFail wOne "AA:BB" none 7 rfl).1
      "gone" rfl).1
  · exact (prior_disconnect_gates_connect adapterIdle wOne "AA:BB" none 7 rfl).2 rfl

/-- Claim C9: a scan command with numeric duration `d` starts the scanner,
sleeps for `scanSeconds d` seconds, and stops it — where the sleep is
`d / 1000` seconds when `d > 100` (milliseconds heuristic) and `d` seconds
when `d ≤ 100`. -/
theorem scan_duration_heuristic (a : Adapter) (s : WState) (d : ℚ) :
    (step a s (Cmd.scan (some d))).2.2 =
      [ACall.scanStart, ACall.scanSleep (scanSeconds d), ACall.scanStop] ∧
    (100 < d → scanSeconds d = d / 1000) ∧
    (d ≤ 100 → scanSeconds d = d) := by
  refine ⟨rfl, ?_, ?_⟩
  · intro h
    unfold scanSeconds
    rw [if_pos h]
  · intro h
    unfold scanSeconds
    rw [if_neg (not_lt.mpr h)]

/-- Claim C9 (witness): a duration of 30000 sleeps 30 seconds, a duration
of 5 sleeps 5 seconds. -/
theorem scan_duration_heuristic_w :
    (step adapterIdle wEmpty (Cmd.scan (some 30000))).2.2 =
      [ACall.scanStart, ACall.scanSleep 30, ACall.scanStop] ∧
    (step adapterIdle wEmpty (Cmd.scan (some 5))).2.2 =
      [ACall.scanStart, ACall.scanSleep 5, ACall.scanStop] := by
  obtain ⟨h1, h2, -⟩ := scan_duration_heuristic adapterIdle wEmpty 30000
  obtain ⟨h3, -, h4⟩ := scan_duration_heuristic adapterIdle wEmpty 5
  constructor
  · rw [h1, h2 (by norm_num)]
    have h30 : (30000 : ℚ) / 1000 = 30 := by norm_num
    rw [h30]
  · rw [h3, h4 (by norm_num)]

/-- Claim C10: a check_connection command never mutates the state, issues
no radio operation, and emits exactly one liveness event; when the address
has no client entry, or the client's connectedness query raises, the result
is `false` rather than an Error event. -/
theorem liveness_check (a : Adapter) (s : WState) (addr : String) :
    step a s (Cmd.checkConnection addr) =
      (s, [Event.connectionStatusChecked addr (checkVal a s addr)], []) ∧
    ((alookup s.clients addr = none ∨
        ∃ h m, alookup s.clients addr = some h ∧ a.isConnR h = .error m) →
      checkVal a s addr = false) := by
  refine ⟨rfl, ?_⟩
  rintro (hc | ⟨h, m, hc, hr⟩)
  · simp [checkVal, hc]
  · simp [checkVal, hc, hr]

/-- Claim C10 (witness): a raising connectedness query and a missing client
both yield a single `false` liveness event without touching the state. -/
theorem liveness_check_w :
    step adapterIsConnRaise wOne (Cmd.checkConnection "AA:BB") =
      (wOne, [Event.connectionStatusChecked "AA:BB" false], []) ∧
    step adapterIdle wEmpty (Cmd.checkConnection "ZZ") =
      (wEmpty, [Event.connectionStatusChecked "ZZ" false], []) := by
  constructor
  · have h := liveness_check adapterIsConnRaise wOne "AA:BB"
    have h2 := h.2 (Or.inr ⟨7, "raise", rfl, rfl⟩)
    rw [h.1, h2]
  · have h := liveness_check adapterIdle wEmpty "ZZ"
    have h2 := h.2 (Or.inl rfl)
    rw [h.1, h2]

end BLE
